import Mathlib

/-!
Verification of the r2web session-orchestration layer.

The TypeScript source is shallowly embedded in Lean:
  * JS strings are `List Char` (a JS string is a sequence of code units;
    all the inputs of interest here are plain ASCII/BMP text).
  * The hexdump scrape parser `parseHexdump` is a pure function.
  * The terminal input router (the `term.onData` callback of
    `connectStreams`) is a step function on an explicit session state.
  * The session create/restart lifecycle is a function to
    (new state, event trace) where each event records an allocation,
    a disposal or a terminal write, with fresh resource ids drawn from a
    counter so that distinctness of directories is expressible.
  * The package loader `initializeWasmer` is a trace of state-setter
    actions with explicit suspension markers at each `await`.
  * The Express `/wasm/:version` proxy handler is an event trace over the
    response object.
-/

namespace R2Web

/-- JS strings are modelled as lists of characters. -/
abbrev JSStr := List Char

/-- The ASCII whitespace characters recognised by the JS regex `\s` and by
`String.prototype.trim` on the inputs of interest (space, tab, LF, CR,
vertical tab, form feed). -/
def jsIsSpace (c : Char) : Bool :=
  c = ' ' || c = '\t' || c = '\n' || c = '\r' || c = '\x0b' || c = '\x0c'

/-- Model of `s.trim()`: remove leading and trailing whitespace. -/
def jsTrim (s : JSStr) : JSStr :=
  ((s.dropWhile jsIsSpace).reverse.dropWhile jsIsSpace).reverse

/-- Model of `output.split("\n")`. -/
def splitNl (s : JSStr) : List JSStr :=
  s.foldr
    (fun c acc =>
      if c = '\n' then [] :: acc
      else
        match acc with
        | [] => [[c]]
        | t :: ts => (c :: t) :: ts)
    [[]]

/-- Model of `s.split(/\s+/)` applied to an already-trimmed string: the maximal
whitespace-free tokens, in order. -/
def splitWs (s : JSStr) : List JSStr :=
  (s.foldr
    (fun c acc =>
      if jsIsSpace c then [] :: acc
      else
        match acc with
        | [] => [[c]]
        | t :: ts => (c :: t) :: ts)
    []).filter (fun t => t ≠ [])

/-- The character class `[0-9a-fA-F]`. -/
def isHexDigitJs (c : Char) : Bool :=
  ('0' ≤ c && c ≤ '9') || ('a' ≤ c && c ≤ 'f') || ('A' ≤ c && c ≤ 'F')

/-- The regex test `/^[0-9a-fA-F]+$/.test(tok)`: nonempty, all hex digits. -/
def isHexTok (tok : JSStr) : Bool :=
  tok ≠ [] && tok.all isHexDigitJs

/-- The regex test `/^[ -~]+$/.test(tok)`: nonempty, all printable ASCII. -/
def isPrintableTok (tok : JSStr) : Bool :=
  tok ≠ [] && tok.all (fun c => ' ' ≤ c && c ≤ '~')

/-- The inner loop `for (j = 0; j < hexGroup.length; j += 2) { byte =
substring(j, j+2); if (byte.length === 2) bytes.push(byte) }`: split into
two-character pairs, dropping a trailing odd character. -/
def pairsOf : JSStr → List JSStr
  | a :: b :: rest => [a, b] :: pairsOf rest
  | _ => []

/-- The value of a single hex digit. -/
def hexVal (c : Char) : Nat :=
  if '0' ≤ c && c ≤ '9' then c.toNat - '0'.toNat
  else if 'a' ≤ c && c ≤ 'f' then c.toNat - 'a'.toNat + 10
  else if 'A' ≤ c && c ≤ 'F' then c.toNat - 'A'.toNat + 10
  else 0

/-- JS `parseInt(s, 16)`: skip leading whitespace, optional sign, optional
`0x`/`0X` prefix, then the longest prefix of hex digits; `none` models NaN
(no digits). -/
def parseIntHex (s : JSStr) : Option Int :=
  let s1 := s.dropWhile jsIsSpace
  let (sign, s2) : Int × JSStr :=
    match s1 with
    | '-' :: r => (-1, r)
    | '+' :: r => (1, r)
    | r => (1, r)
  let s3 :=
    match s2 with
    | '0' :: 'x' :: r => r
    | '0' :: 'X' :: r => r
    | r => r
  let ds := s3.takeWhile isHexDigitJs
  if ds = [] then none
  else some (sign * (ds.foldl (fun acc c => acc * 16 + hexVal c) (0 : Nat) : Nat))

/-- One row of the parsed hex dump, as produced by `parseHexdump`.
`offsetNum` is `parseInt(offset, 16)`, where `none` models NaN. -/
structure HexLine where
  offset : JSStr
  offsetNum : Option Int
  bytes : List JSStr
  ascii : JSStr
deriving DecidableEq

/-- One iteration of the token-classification loop of `parseHexdump`:
a token that is pure hex of length at least 2 contributes its
two-character pairs to the byte accumulator; otherwise a printable token
is appended to the running ASCII buffer followed by a space; anything
else is ignored. -/
def classifyStep (acc : List JSStr × JSStr) (tok : JSStr) : List JSStr × JSStr :=
  if isHexTok tok && decide (2 ≤ tok.length) then
    (acc.1 ++ pairsOf tok, acc.2)
  else if isPrintableTok tok then
    (acc.1, acc.2 ++ tok ++ [' '])
  else acc

/-- The token-classification loop of `parseHexdump` (`for (i = 1; ...)`),
folded over the tokens after the address. -/
def classifyToks (toks : List JSStr) : List JSStr × JSStr :=
  toks.foldl classifyStep ([], [])

/-- The number of byte pairs a line contributes before the
`bytes.length === 16` acceptance check. -/
def linePairCount (line : JSStr) : Nat :=
  (classifyToks (splitWs (jsTrim line)).tail).1.length

/-- Model of `line.startsWith("0x")`. -/
def startsWith0x : JSStr → Bool
  | '0' :: 'x' :: _ => true
  | _ => false

/-- Processing of one line of `parseHexdump`: `none` models `continue` /
rejection, `some` a record pushed onto the result. -/
def parseLine (line : JSStr) : Option HexLine :=
  if startsWith0x line = false then none
  else
    let parts := splitWs (jsTrim line)
    if parts.length < 3 then none
    else if (classifyToks parts.tail).1.length = 16 then
      some ⟨parts.headD [], parseIntHex (parts.headD []),
        (classifyToks parts.tail).1, jsTrim (classifyToks parts.tail).2⟩
    else none

/-- The function `parseHexdump` from the hex-view scrape handler: split the output on
newlines, keep lines whose trim is nonempty, and collect the records of
the lines that survive `parseLine`. -/
def parseHexdump (output : JSStr) : List HexLine :=
  ((splitNl output).filter (fun l => jsTrim l ≠ [])).filterMap parseLine

/-! ## Terminal input router

The `term.onData` callback installed by `connectStreams` in the R2Tab
component.  The closure variables (`cancelController`, `history`,
`historyIndex`, `currentInput`) together with the observable effects
(writes to the instance stdin, writes to the terminal, restart/clear
requests, aborts of the tracked cancel token) form the state.  The
`AbortController` is modelled by the flag `cancelActive` plus a counter
`aborts` of `abort()` calls on tracked tokens. -/

/-- State of one terminal/instance input-routing session. -/
structure TermSession where
  cancelActive : Bool := false
  aborts : Nat := 0
  history : List JSStr := []
  historyIndex : Int := -1
  currentInput : JSStr := []
  stdinWrites : List JSStr := []
  termWrites : List JSStr := []
  restartRequests : Nat := 0
  clears : Nat := 0
deriving DecidableEq

/-- The initial closure state of `connectStreams`. -/
def initTermSession : TermSession := {}

/-- Environment supplied by the browser at the moment a keystroke is
handled: the text of the terminal line under the cursor (read in the
Enter branch), the clipboard contents (`none` models a rejected clipboard
read) and the answers of the two `prompt()` dialogs (`none` models
cancel / empty, i.e. a falsy value). -/
structure Oracles where
  promptLine : JSStr := []
  clipboard : Option JSStr := none
  findTerm : Option JSStr := none
  gotoAddr : Option JSStr := none

/-- The last `]` of the string, as an index, if any. -/
def lastCloseIdx (s : JSStr) : Option Nat :=
  match s.reverse.findIdx? (fun c => c = ']') with
  | none => none
  | some k => some (s.length - 1 - k)

/-- The first match of the JS regex `/\[0x.*\]/` in `s`: starts at the
first occurrence of `[0x` that is followed (greedily) by a `]`, and ends
at the last `]` of the string. -/
def promptMatch : JSStr → Option JSStr
  | [] => none
  | c :: rest =>
    if c = '[' &&
        (match rest with
         | '0' :: 'x' :: r2 => r2.contains ']'
         | _ => false) then
      match lastCloseIdx (c :: rest) with
      | some j => some ((c :: rest).take (j + 1))
      | none => none
    else promptMatch rest

/-- The terminal rewrite performed in the Enter branch after a non-blank
submission: erase the line and show either the captured bracket-address
prompt or the generic `]> ` prompt. -/
def enterPromptWrite (promptLine : JSStr) : JSStr :=
  match promptMatch promptLine with
  | some cp => "\x1b[2K\r".toList ++ cp ++ [' ']
  | none => "\x1b[2K\r]> ".toList

/-- The `term.onData` handler: one keystroke-equivalent unit `data`
delivered to the session in state `s`, with browser environment `o`. -/
def onData (o : Oracles) (data : JSStr) (s : TermSession) : TermSession :=
  -- Ctrl+C
  if data = ['\x03'] then
    if s.cancelActive then
      { s with
        aborts := s.aborts + 1
        cancelActive := false
        termWrites := s.termWrites ++ ["^C\r".toList]
        stdinWrites := s.stdinWrites ++ [['\r']] }
    else s
  -- Ctrl+V
  else if data = ['\x16'] then
    match o.clipboard with
    | some t =>
      { s with
        currentInput := s.currentInput ++ t
        termWrites := s.termWrites ++ [t] }
    | none =>
      { s with
        termWrites := s.termWrites ++ ["\r\nError: Failed to read clipboard\r\n".toList] }
  -- Ctrl+R
  else if data = ['\x12'] || data = ['R'] then
    { s with restartRequests := s.restartRequests + 1 }
  -- Ctrl+L
  else if data = ['\x0c'] || data = ['L'] then
    { s with clears := s.clears + 1 }
  -- Ctrl+F
  else if data = ['\x06'] || data = ['F'] then
    match o.findTerm with
    | some t =>
      { s with stdinWrites := s.stdinWrites ++ ["/ ".toList ++ t, ['\r']] }
    | none => s
  -- Ctrl+G
  else if data = ['\x07'] || data = ['G'] then
    match o.gotoAddr with
    | some t =>
      { s with stdinWrites := s.stdinWrites ++ ["s ".toList ++ t, ['\r']] }
    | none => s
  -- Enter
  else if data = ['\r'] then
    let s1 :=
      if jsTrim s.currentInput ≠ [] then
        { s with
          history := s.history ++ [s.currentInput]
          historyIndex := ((s.history ++ [s.currentInput]).length : Int)
          termWrites := s.termWrites ++ [enterPromptWrite o.promptLine] }
      else s
    { s1 with
      stdinWrites := s1.stdinWrites ++ [s1.currentInput, ['\r']]
      currentInput := [] }
  -- Up arrow
  else if data = "\x1b[A".toList then
    if 0 < s.historyIndex then
      let entry := s.history.getD (s.historyIndex - 1).toNat []
      { s with
        historyIndex := s.historyIndex - 1
        currentInput := entry
        termWrites := s.termWrites ++ ["\x1b[2K\r".toList ++ entry] }
    else s
  -- Down arrow
  else if data = "\x1b[B".toList then
    if s.historyIndex < (s.history.length : Int) - 1 then
      let entry := s.history.getD (s.historyIndex + 1).toNat []
      { s with
        historyIndex := s.historyIndex + 1
        currentInput := entry
        termWrites := s.termWrites ++ ["\x1b[2K\r".toList ++ entry] }
    else if s.historyIndex = (s.history.length : Int) - 1 then
      { s with
        historyIndex := s.historyIndex + 1
        currentInput := []
        termWrites := s.termWrites ++ ["\x1b[2K\r".toList] }
    else s
  -- Backspace
  else if data = ['\x7f'] then
    if 0 < s.currentInput.length then
      { s with
        currentInput := s.currentInput.dropLast
        termWrites := s.termWrites ++ ["\x1b[D \x1b[D".toList] }
    else s
  -- any other unit: echo, extend the pending buffer, renew the token
  else
    { s with
      currentInput := s.currentInput ++ data
      termWrites := s.termWrites ++ [data]
      aborts := s.aborts + (if s.cancelActive then 1 else 0)
      cancelActive := true }

/-- Deliver a sequence of data units in order. -/
def runData (o : Oracles) (events : List JSStr) (s : TermSession) : TermSession :=
  events.foldl (fun st d => onData o d st) s

/-! ## Session lifecycle (create / restart)

The R2Tab component's create `useEffect` and `restartSession`.  Resource
allocations (`new Directory()`, `pkg.entrypoint.run(...)`) draw fresh ids
from the session's counter `nextId`, so "a MountedDirectory distinct from
the previous one" is "a different id".  Disposal of the previous writer
and instance is wrapped in `try { } catch { }` in the source; the booleans
`closeFails` / `freeFails` say whether those calls throw, and the result
must not depend on them. -/

/-- An immutable loaded package (the `Wasmer` object). -/
structure Package where
  bytes : List Nat
deriving DecidableEq

/-- The primary file handed to the session (name + contents). -/
structure RFile where
  name : JSStr
  data : List Nat
deriving DecidableEq

/-- The per-tab session state relevant to create/restart: whether the
terminal exists, the currently mounted directory, the running instance,
the stdin writer (all as resource ids), and the fresh-id counter. -/
structure Session where
  term : Bool := true
  dir : Option Nat := none
  inst : Option Nat := none
  writer : Option Nat := none
  nextId : Nat := 0
deriving DecidableEq

/-- Observable events of a create/restart run, in program order. -/
inductive REvent where
  | writeTerm (msg : JSStr)
  | closeWriter (w : Nat) (failed : Bool)
  | freeInst (i : Nat) (failed : Bool)
  | newDir (d : Nat)
  | runInst (i : Nat) (pkg : Package) (args : List JSStr) (file : RFile) (dir : Nat)
deriving DecidableEq

/-- The fixed startup arguments:
`["-e", "io.cache=1", "-e", "anal.depth=24", file.name]`. -/
def r2Args (f : RFile) : List JSStr :=
  ["-e".toList, "io.cache=1".toList, "-e".toList, "anal.depth=24".toList, f.name]

/-- The terminal message written when no file is available. -/
def noFileMsg : JSStr := "Error: No file provided".toList

/-- The create `useEffect` body of R2Tab: nothing happens without a
package or terminal; with a null file it only writes `noFileMsg` (no
throw, no allocation); otherwise it erases the starting line, allocates a
fresh directory and launches the instance with the fixed arguments. -/
def createSession (pkg : Option Package) (file : Option RFile) (s : Session) :
    Session × List REvent :=
  match pkg, s.term with
  | none, _ => (s, [])
  | some _, false => (s, [])
  | some p, true =>
    match file with
    | none => (s, [.writeTerm noFileMsg])
    | some f =>
      let d := s.nextId
      let i := s.nextId + 1
      ({ s with dir := some d, inst := some i, writer := some i, nextId := s.nextId + 2 },
       [.writeTerm "\x1b[A".toList, .writeTerm "\x1b[2K".toList, .writeTerm ['\r'],
        .newDir d, .runInst i p (r2Args f) f d])

/-- The function `restartSession` of R2Tab: guards as in create; with a file it writes
the restart banner, closes the previous writer and frees the previous
instance (both best-effort, errors swallowed), then allocates a fresh
directory and relaunches with the same package and file. -/
def restartSession (pkg : Option Package) (file : Option RFile)
    (closeFails freeFails : Bool) (s : Session) : Session × List REvent :=
  match pkg, s.term with
  | none, _ => (s, [])
  | some _, false => (s, [])
  | some p, true =>
    match file with
    | none => (s, [.writeTerm noFileMsg])
    | some f =>
      let closeEvs :=
        match s.writer with
        | some w => [REvent.closeWriter w closeFails]
        | none => []
      let freeEvs :=
        match s.inst with
        | some i => [REvent.freeInst i freeFails]
        | none => []
      let d := s.nextId
      let i := s.nextId + 1
      ({ s with dir := some d, inst := some i, writer := some i, nextId := s.nextId + 2 },
       [.writeTerm "\x1b[A".toList, .writeTerm "\x1b[2K".toList, .writeTerm ['\r'],
        .writeTerm "Restarting session...".toList] ++
       closeEvs ++ freeEvs ++ [.newDir d, .runInst i p (r2Args f) f d])

/-! ## Package loader (`initializeWasmer`)

The async function is embedded as the trace of its state-setter calls
(`setDownloadPhase`, `setDownloadProgress`, `setPkg`), with a marker at
every `await` (`suspend`, and the named suspensions `netFetch` for
`await fetch(wasmUrl)` and `cachePut` for `await cache.put(...)`).
The UI framework renders state only when the task yields at a suspension
point, so the observable (phase, progress) pairs are the states at
suspension markers and at completion (`snapshots`); the raw setter-call
sequence is kept as well (`reports`, `tagged`).

Inputs: `cachedBytes` is the cache lookup result for the requested
version, `fetchOk` whether `fetch(wasmUrl)` resolves, `total` the
advertised `content-length` (0 when absent), `body` the chunks delivered
by the body reader (`none` when `response.body` is null), `doCache` the
`cache=true` query flag. -/

/-- Download phase, as in the `downloadPhase` state. -/
inductive Phase where
  | initializing
  | downloading
  | processing
  | complete
deriving DecidableEq

/-- One atomic step of `initializeWasmer`, in program order. -/
inductive WAction where
  | setPhase (p : Phase)
  | setProgress (v : ℚ)
  | setPkg (p : Package)
  | netFetch
  | cachePut (bytes : List Nat)
  | suspend
deriving DecidableEq

/-- Model of `Math.min(30 + (loaded / total) * 50, 80)`. -/
def progressVal (total loaded : Nat) : ℚ :=
  min (30 + ((loaded : ℚ) / (total : ℚ)) * 50) 80

/-- The body-reader loop: each iteration awaits a read; a delivered chunk
is accumulated and, when a total was advertised, the scaled progress is
reported; the final await returns done. -/
def chunkActs (total : Nat) : Nat → List (List Nat) → List WAction
  | _, [] => [WAction.suspend]
  | loaded, c :: cs =>
    WAction.suspend ::
      ((if 0 < total then [WAction.setProgress (progressVal total (loaded + c.length))] else []) ++
        chunkActs total (loaded + c.length) cs)

/-- The trace of one `initializeWasmer` run.  The four leading suspends
are `await import(...)`, `await init(...)`, `await caches.open(...)` and
`await cache.match(version)`. -/
def initializeWasmer (cachedBytes : Option (List Nat)) (fetchOk : Bool) (total : Nat)
    (body : Option (List (List Nat))) (doCache : Bool) : List WAction :=
  WAction.suspend :: WAction.suspend :: WAction.suspend :: WAction.suspend ::
  match cachedBytes with
  | some b => [WAction.suspend, WAction.setPkg ⟨b⟩]
  | none =>
    [WAction.setPhase .initializing, WAction.setProgress 10,
     WAction.setPhase .downloading, WAction.setProgress 30, WAction.netFetch] ++
    if fetchOk = false then []
    else
      (match body with
       | some cs => chunkActs total 0 cs
       | none => []) ++
      [WAction.setPhase .processing, WAction.setProgress 85, WAction.setProgress 90,
       WAction.setPkg ⟨(body.getD []).flatten⟩, WAction.setProgress 95] ++
      (if doCache then [WAction.cachePut ((body.getD []).flatten)] else []) ++
      [WAction.setProgress 100, WAction.setPhase .complete]

/-- The progress values passed to `setDownloadProgress`, in order. -/
def reports (l : List WAction) : List ℚ :=
  l.filterMap (fun a => match a with | .setProgress v => some v | _ => none)

/-- The progress reports, each paired with the value of the phase
variable at the time of the call. -/
def tagged (ph : Phase) : List WAction → List (Phase × ℚ)
  | [] => []
  | .setPhase p :: rest => tagged p rest
  | .setProgress v :: rest => (ph, v) :: tagged ph rest
  | _ :: rest => tagged ph rest

/-- Whether an action is a suspension point (an `await`). -/
def isSuspension : WAction → Bool
  | .netFetch => true
  | .cachePut _ => true
  | .suspend => true
  | _ => false

/-- Effect of one action on the (phase, progress) state. -/
def stepState (st : Phase × ℚ) : WAction → Phase × ℚ
  | .setPhase p => (p, st.2)
  | .setProgress v => (st.1, v)
  | _ => st

/-- The (phase, progress) state after a list of actions. -/
def endState (st : Phase × ℚ) (l : List WAction) : Phase × ℚ :=
  l.foldl stepState st

/-- The states observed at the suspension points of a trace. -/
def snapAux : Phase × ℚ → List WAction → List (Phase × ℚ)
  | _, [] => []
  | st, a :: rest =>
    (if isSuspension a then [st] else []) ++ snapAux (stepState st a) rest

/-- All observable (phase, progress) states of a run: the states at each
suspension point, and the final state. -/
def snapshots (st : Phase × ℚ) (l : List WAction) : List (Phase × ℚ) :=
  snapAux st l ++ [endState st l]

/-- The initial (phase, progress) state of the component. -/
def initPP : Phase × ℚ := (.initializing, 0)

/-! ## Proxy endpoint `GET /wasm/:version`

The Express handler is embedded as the trace of operations on the
response object.  `res.headersSent` is true exactly when a body write has
already happened, so the guard `if (!res.headersSent)` in the extraction
error callback is "no chunk was flushed yet".  An extraction failure is
either before any byte was flushed (`fail []`) or after some chunks went
out (`fail (c :: cs)`), in which case the stream error can only abort the
connection. -/

/-- Outcome of piping the upstream ZIP stream through the
`unzipper.ParseOne(/radare2\.wasm$/)` extractor. -/
inductive ExtractOutcome where
  | ok (chunks : List (List Nat))
  | fail (flushed : List (List Nat))
deriving DecidableEq

/-- Operations performed on the Express response object, in order. -/
inductive ResEvent where
  | rset
  | rstatus (code : Nat)
  | rsend (body : JSStr)
  | rwrite (chunk : List Nat)
  | rabort
deriving DecidableEq

/-- The `/wasm/:version` handler.  `fetchOk` is whether
`await axios.get(zipUrl, ...)` resolves; on rejection the catch block
signals 500 with "Error fetching ZIP file" (headers cannot have been sent
yet on that path).  On success the headers are set and the extracted
stream is piped to the response; an extraction error signals 500 with
"Error extracting WASM file" only if no chunk was flushed, otherwise it
only aborts. -/
def wasmHandler (fetchOk : Bool) (ex : ExtractOutcome) : List ResEvent :=
  if fetchOk = false then
    [.rstatus 500, .rsend "Error fetching ZIP file".toList]
  else
    .rset ::
    match ex with
    | .ok chunks => chunks.map .rwrite
    | .fail flushed =>
      flushed.map .rwrite ++
        (if flushed = [] then
          [ResEvent.rstatus 500, ResEvent.rsend "Error extracting WASM file".toList]
        else [ResEvent.rabort])

/-- How many times a status code is signalled on the response. -/
def statusCount (l : List ResEvent) : Nat :=
  l.countP (fun e => match e with | .rstatus _ => true | _ => false)

/-! ## Auxiliary definitions and concrete inputs used by the theorems -/

/-- The value of the phase variable after a list of actions. -/
def endPhase : Phase → List WAction → Phase
  | ph, [] => ph
  | _, .setPhase q :: rest => endPhase q rest
  | ph, _ :: rest => endPhase ph rest

/-- The portion of the `initializeWasmer` trace emitted on a cache miss
with a successful fetch, abstracted over the reader loop `mid` and the
concatenated buffer `buf`. -/
def loaderTrace (mid : List WAction) (buf : List Nat) (doCache : Bool) : List WAction :=
  [.suspend, .suspend, .suspend, .suspend,
   .setPhase .initializing, .setProgress 10,
   .setPhase .downloading, .setProgress 30, .netFetch] ++
  mid ++
  [.setPhase .processing, .setProgress 85, .setProgress 90,
   .setPkg ⟨buf⟩, .setProgress 95] ++
  (if doCache then [WAction.cachePut buf] else []) ++
  [.setProgress 100, .setPhase .complete]

/-- The example line of the specification. -/
def c1ExampleLine : JSStr :=
  "0x00000000 41 42 43 44 45 46 47 48 49 4a 4b 4c 4d 4e 4f 50  ABCDEFGHIJKLMNOP".toList

/-- The record the specification expects for `c1ExampleLine`. -/
def c1ExampleRecord : HexLine :=
  ⟨"0x00000000".toList, some 0,
   ["41".toList, "42".toList, "43".toList, "44".toList, "45".toList, "46".toList,
    "47".toList, "48".toList, "49".toList, "4a".toList, "4b".toList, "4c".toList,
    "4d".toList, "4e".toList, "4f".toList, "50".toList],
   "ABCDEFGHIJKLMNOP".toList⟩

/-- A line carrying only 15 byte pairs. -/
def c1ShortLine : JSStr :=
  "0x00000000 41 42 43 44 45 46 47 48 49 4a 4b 4c 4d 4e 4f  ABCDEFGHIJKLMNO".toList

/-- A well-formed 16-byte line whose ASCII-rendering column happens to
consist only of hex digits. -/
def c10CafeLine : JSStr :=
  "0x00000000 41 42 43 44 45 46 47 48 49 4a 4b 4c 4d 4e 4f 50  CAFEBABE".toList

/-- A fixed browser environment for the concrete scenarios. -/
def termOracles : Oracles := {}

/-- The up-arrow data unit. -/
def upKey : JSStr := "\x1b[A".toList

/-- The down-arrow data unit. -/
def downKey : JSStr := "\x1b[B".toList

/-- The session state after submitting the lines a, b, c. -/
def c2AfterSubmits : TermSession :=
  runData termOracles [['a'], ['\r'], ['b'], ['\r'], ['c'], ['\r']] initTermSession

/-- States reached from `c2AfterSubmits` by previous, previous, previous,
next. -/
def c2S1 : TermSession := onData termOracles upKey c2AfterSubmits

/-- Second state of the history-navigation scenario. -/
def c2S2 : TermSession := onData termOracles upKey c2S1

/-- Third state of the history-navigation scenario. -/
def c2S3 : TermSession := onData termOracles upKey c2S2

/-- Fourth state of the history-navigation scenario. -/
def c2S4 : TermSession := onData termOracles downKey c2S3

/-- The pending buffer after each of the four navigation presses. -/
def c2Observed : List JSStr :=
  [c2S1.currentInput, c2S2.currentInput, c2S3.currentInput, c2S4.currentInput]

/-- A session with a tracked in-flight cancel token. -/
def c3ActiveState : TermSession := { cancelActive := true }

/-- The session state after typing the characters p and d. -/
def c8Start : TermSession := runData termOracles [['p'], ['d']] initTermSession

/-- A running session for the restart scenario. -/
def c7Session : Session :=
  { term := true, dir := some 0, inst := some 1, writer := some 1, nextId := 2 }

/-! ## Theorems -/

/-- C1: the single example line yields exactly one record with numeric
offset 0, the sixteen byte-pair strings 41..50 and ascii
ABCDEFGHIJKLMNOP; and for every input, a line whose classified byte-pair
count differs from 16 is rejected by `parseLine` (hence contributes no
record, silently), since `parseHexdump` is exactly the per-line filter of
`parseLine` over the nonblank lines. -/
theorem C1_hexdump_example_and_silent_drop :
    parseHexdump c1ExampleLine = [c1ExampleRecord] ∧
    (∀ l : JSStr, linePairCount l ≠ 16 → parseLine l = none) ∧
    (∀ out : JSStr, parseHexdump out =
      ((splitNl out).filter (fun l => jsTrim l ≠ [])).filterMap parseLine) := by
  refine ⟨by decide, ?_, fun _ => rfl⟩
  intro l h
  unfold parseLine
  split
  · rfl
  · dsimp only
    split
    · rfl
    · split
      · exact absurd ‹_› h
      · rfl

/-- C1 witness: a concrete line with only 15 byte pairs is dropped. -/
theorem C1_hexdump_witness :
    linePairCount c1ShortLine = 15 ∧ parseLine c1ShortLine = none :=
  ⟨by decide, C1_hexdump_example_and_silent_drop.2.1 c1ShortLine (by decide)⟩

/-- C10: token classification ignores position — any token of hex digits
with length at least 2 is classified as byte pairs and never as printable
ASCII text; consequently the concrete line whose ASCII column is
CAFEBABE yields 20 byte pairs and is dropped entirely. -/
theorem C10_positionless_hex_classification :
    (∀ (acc : List JSStr × JSStr) (tok : JSStr),
        isHexTok tok = true → 2 ≤ tok.length →
        classifyStep acc tok = (acc.1 ++ pairsOf tok, acc.2)) ∧
    linePairCount c10CafeLine = 20 ∧
    parseHexdump c10CafeLine = [] := by
  refine ⟨?_, by decide, by decide⟩
  intro acc tok h1 h2
  simp [classifyStep, h1, h2]

/-- C10 witness: the classification step applied to the concrete token
CAFEBABE with an empty accumulator. -/
theorem C10_witness :
    classifyStep (([], []) : List JSStr × JSStr) "CAFEBABE".toList =
      (([] : List JSStr) ++ pairsOf "CAFEBABE".toList, ([] : JSStr)) :=
  C10_positionless_hex_classification.1 ([], []) "CAFEBABE".toList (by decide) (by decide)

/-- Branch lemma: delivering up-arrow data. -/
theorem onData_up (o : Oracles) (s : TermSession) :
    onData o upKey s =
      (if 0 < s.historyIndex then
        { s with
          historyIndex := s.historyIndex - 1
          currentInput := s.history.getD (s.historyIndex - 1).toNat []
          termWrites := s.termWrites ++
            ["\x1b[2K\r".toList ++ s.history.getD (s.historyIndex - 1).toNat []] }
      else s) := rfl

/-- Branch lemma: delivering down-arrow data. -/
theorem onData_down (o : Oracles) (s : TermSession) :
    onData o downKey s =
      (if s.historyIndex < (s.history.length : Int) - 1 then
        { s with
          historyIndex := s.historyIndex + 1
          currentInput := s.history.getD (s.historyIndex + 1).toNat []
          termWrites := s.termWrites ++
            ["\x1b[2K\r".toList ++ s.history.getD (s.historyIndex + 1).toNat []] }
      else if s.historyIndex = (s.history.length : Int) - 1 then
        { s with
          historyIndex := s.historyIndex + 1
          currentInput := []
          termWrites := s.termWrites ++ ["\x1b[2K\r".toList] }
      else s) := rfl

/-- Branch lemma: delivering the interrupt byte 0x03. -/
theorem onData_ctrlC (o : Oracles) (s : TermSession) :
    onData o ['\x03'] s =
      (if s.cancelActive then
        { s with
          aborts := s.aborts + 1
          cancelActive := false
          termWrites := s.termWrites ++ ["^C\r".toList]
          stdinWrites := s.stdinWrites ++ [['\r']] }
      else s) := rfl

/-- Branch lemma: delivering the line terminator. -/
theorem onData_enter (o : Oracles) (s : TermSession) :
    onData o ['\r'] s =
      (let s1 :=
        if jsTrim s.currentInput ≠ [] then
          { s with
            history := s.history ++ [s.currentInput]
            historyIndex := ((s.history ++ [s.currentInput]).length : Int)
            termWrites := s.termWrites ++ [enterPromptWrite o.promptLine] }
        else s
       { s1 with
         stdinWrites := s1.stdinWrites ++ [s1.currentInput, ['\r']]
         currentInput := [] }) := rfl

/-- C2 counterexample: after submitting a, b, c, three previous presses
and one next press do NOT produce the pending-buffer sequence b, a, a, b
claimed by the specification (the code produces c, b, a, b). -/
theorem C2_history_counterexample :
    ¬ (c2Observed = ["b".toList, "a".toList, "a".toList, "b".toList]) := by decide

/-- C2 (amended): after submitting a, b, c, pressing previous three times
then next once produces the pending-buffer sequence c, b, a, b; the
cursor clamps at index 0 (a further previous there is a no-op, shown on
the concrete state `c2S3`) and never wraps; in general, a cursor within
[0, history.length] stays within [0, history.length] under previous/next,
an in-bounds move replaces the pending buffer with the historical entry,
and moving past the end clears the pending buffer. -/
theorem C2_history_navigation_amended (o : Oracles) (s : TermSession)
    (h0 : 0 ≤ s.historyIndex) (h1 : s.historyIndex ≤ (s.history.length : Int)) :
    c2Observed = ["c".toList, "b".toList, "a".toList, "b".toList] ∧
    onData termOracles upKey c2S3 = c2S3 ∧
    ((onData o upKey s).history = s.history ∧ (onData o downKey s).history = s.history) ∧
    (0 ≤ (onData o upKey s).historyIndex ∧
      (onData o upKey s).historyIndex ≤ (s.history.length : Int)) ∧
    (s.historyIndex = 0 → onData o upKey s = s) ∧
    (0 < s.historyIndex →
      (onData o upKey s).historyIndex = s.historyIndex - 1 ∧
      (onData o upKey s).currentInput = s.history.getD (s.historyIndex - 1).toNat []) ∧
    (0 ≤ (onData o downKey s).historyIndex ∧
      (onData o downKey s).historyIndex ≤ (s.history.length : Int)) ∧
    (s.historyIndex < (s.history.length : Int) - 1 →
      (onData o downKey s).historyIndex = s.historyIndex + 1 ∧
      (onData o downKey s).currentInput = s.history.getD (s.historyIndex + 1).toNat []) ∧
    (s.historyIndex = (s.history.length : Int) - 1 →
      (onData o downKey s).historyIndex = (s.history.length : Int) ∧
      (onData o downKey s).currentInput = []) ∧
    (s.historyIndex = (s.history.length : Int) → onData o downKey s = s) := by
  refine ⟨by decide, by decide, ?_, ?_, ?_, ?_, ?_, ?_, ?_, ?_⟩
  · rw [onData_up, onData_down]
    constructor <;> split_ifs <;> rfl
  · rw [onData_up]
    split_ifs with hc <;> (try dsimp only) <;> omega
  · intro h
    rw [onData_up, if_neg (by omega)]
  · intro h
    rw [onData_up, if_pos h]
    exact ⟨rfl, rfl⟩
  · rw [onData_down]
    split_ifs with hc hc2 <;> (try dsimp only) <;> omega
  · intro h
    rw [onData_down, if_pos h]
    exact ⟨rfl, rfl⟩
  · intro h
    rw [onData_down, if_neg (by omega), if_pos h]
    exact ⟨by dsimp only; omega, rfl⟩
  · intro h
    rw [onData_down, if_neg (by omega), if_neg (by omega)]

/-- C2 witness: the amended navigation theorem applied to the concrete
post-submission state (cursor 3, history a, b, c). -/
theorem C2_history_witness :
    (onData termOracles upKey c2AfterSubmits).historyIndex =
      c2AfterSubmits.historyIndex - 1 ∧
    (onData termOracles upKey c2AfterSubmits).currentInput =
      c2AfterSubmits.history.getD (c2AfterSubmits.historyIndex - 1).toNat [] :=
  (C2_history_navigation_amended termOracles c2AfterSubmits (by decide)
    (by decide)).2.2.2.2.2.1 (by decide)

/-- C3 counterexample: delivering Ctrl+C to a session with no tracked
cancel token writes no interrupt marker and forwards no line terminator —
the handler does nothing at all — contradicting the claim that every
delivery writes the marker and forwards a terminator. -/
theorem C3_interrupt_counterexample :
    (onData termOracles ['\x03'] initTermSession).termWrites = [] ∧
    (onData termOracles ['\x03'] initTermSession).stdinWrites = [] := by decide

/-- C3 (amended): when a cancel token is tracked, delivering Ctrl+C
aborts it, stops tracking it, writes the visible marker and forwards a
bare line terminator to the instance input; when none is tracked, the
delivery does nothing; in either case the interrupt byte is never
forwarded as literal instance input (the pending buffer is untouched and
the only possible stdin write is the bare terminator). -/
theorem C3_interrupt_amended (o : Oracles) (s : TermSession) :
    (s.cancelActive = true →
      onData o ['\x03'] s =
        { s with
          aborts := s.aborts + 1
          cancelActive := false
          termWrites := s.termWrites ++ ["^C\r".toList]
          stdinWrites := s.stdinWrites ++ [['\r']] }) ∧
    (s.cancelActive = false → onData o ['\x03'] s = s) ∧
    (onData o ['\x03'] s).currentInput = s.currentInput ∧
    ((onData o ['\x03'] s).stdinWrites = s.stdinWrites ∨
      (onData o ['\x03'] s).stdinWrites = s.stdinWrites ++ [['\r']]) := by
  rw [onData_ctrlC]
  refine ⟨fun h => by rw [if_pos h], fun h => by rw [h]; rfl, ?_, ?_⟩
  · split_ifs <;> rfl
  · split_ifs
    · exact Or.inr rfl
    · exact Or.inl rfl

/-- C3 witness: the amended interrupt theorem applied to a concrete
session with a tracked token. -/
theorem C3_interrupt_witness :
    onData termOracles ['\x03'] c3ActiveState =
      { c3ActiveState with
        aborts := c3ActiveState.aborts + 1
        cancelActive := false
        termWrites := c3ActiveState.termWrites ++ ["^C\r".toList]
        stdinWrites := c3ActiveState.stdinWrites ++ [['\r']] } :=
  (C3_interrupt_amended termOracles c3ActiveState).1 rfl

/-- C8: submitting the pending buffer pd with the line terminator
forwards exactly the bytes pd CR to the instance input (two stdin writes
whose concatenation is "pd\r"), records pd as history entry 0, resets the
cursor to one-past-the-end of the history, and clears the pending
buffer. -/
theorem C8_submit_pd (o : Oracles) (s : TermSession)
    (hh : s.history = []) (hc : s.currentInput = "pd".toList) :
    (onData o ['\r'] s).stdinWrites = s.stdinWrites ++ ["pd".toList, ['\r']] ∧
    ((onData o ['\r'] s).stdinWrites.drop s.stdinWrites.length).flatten = "pd\r".toList ∧
    (onData o ['\r'] s).history = ["pd".toList] ∧
    (onData o ['\r'] s).historyIndex = (((onData o ['\r'] s).history.length : Int)) ∧
    (onData o ['\r'] s).historyIndex = 1 ∧
    (onData o ['\r'] s).currentInput = [] := by
  rw [onData_enter]
  dsimp only
  rw [hc, hh, if_pos (by decide)]
  refine ⟨rfl, ?_, rfl, rfl, rfl, rfl⟩
  rw [List.drop_left]
  dsimp only
  decide

/-- C8 witness: the submission theorem applied to the concrete state
reached by typing p then d into a fresh session. -/
theorem C8_submit_witness :
    (onData termOracles ['\r'] c8Start).stdinWrites =
      c8Start.stdinWrites ++ ["pd".toList, ['\r']] :=
  (C8_submit_pd termOracles c8Start (by decide) (by decide)).1

/-- C6: creating or restarting with an absent primary file fails fast by
writing the NoFileProvided terminal message, returns normally (the
operation is a total function, nothing is thrown), leaves the entire
session state unchanged — in particular an Unstarted session (no
instance, no directory) remains Unstarted — and allocates no
MountedDirectory and no InstanceHandle (the event trace holds no
allocation event, only the message). -/
theorem C6_no_file_fails_fast (p : Package) (s : Session) (cf ff : Bool)
    (ht : s.term = true) :
    createSession (some p) none s = (s, [.writeTerm noFileMsg]) ∧
    restartSession (some p) none cf ff s = (s, [.writeTerm noFileMsg]) := by
  constructor <;> (rw [show s = { s with term := true } from by rw [← ht]]) <;> rfl

/-- C6 witness: the no-file theorem applied to a fresh concrete session. -/
theorem C6_no_file_witness :
    createSession (some ⟨[]⟩) none {} = (({} : Session), [.writeTerm noFileMsg]) :=
  (C6_no_file_fails_fast ⟨[]⟩ {} false false rfl).1

/-- C7: a restart allocates a MountedDirectory with a fresh id, distinct
from the id of the directory of the previous instance; the new instance
is launched with the same package and primary file and the fixed
arguments; the previous writer is closed and the previous handle freed —
best-effort, the trace and resulting state are the same whether or not
those calls throw (`cf`, `ff` arbitrary) — strictly before the new
directory is allocated and the new instance launched; and the freshness
invariant (allocated dir id below the counter) is preserved. -/
theorem C7_restart_fresh_dir (p : Package) (f : RFile) (s : Session)
    (cf ff : Bool) (w i : Nat) (ht : s.term = true) (hw : s.writer = some w)
    (hi : s.inst = some i) (hdir : ∀ d, s.dir = some d → d < s.nextId) :
    (restartSession (some p) (some f) cf ff s).1.dir = some s.nextId ∧
    (∀ d, s.dir = some d → d ≠ s.nextId) ∧
    (restartSession (some p) (some f) cf ff s).2 =
      [.writeTerm "\x1b[A".toList, .writeTerm "\x1b[2K".toList, .writeTerm ['\r'],
       .writeTerm "Restarting session...".toList,
       .closeWriter w cf, .freeInst i ff,
       .newDir s.nextId, .runInst (s.nextId + 1) p (r2Args f) f s.nextId] ∧
    (∀ d, (restartSession (some p) (some f) cf ff s).1.dir = some d →
      d < (restartSession (some p) (some f) cf ff s).1.nextId) := by
  refine ⟨?_, fun d hd => Nat.ne_of_lt (hdir d hd), ?_, ?_⟩
  · simp [restartSession, ht]
  · simp [restartSession, ht, hw, hi]
  · intro d hd
    simp [restartSession, ht] at hd ⊢
    omega

/-- C7 witness: the restart theorem applied to a concrete running
session. -/
theorem C7_restart_witness :
    (restartSession (some ⟨[]⟩) (some ⟨['a'], []⟩) false false c7Session).1.dir =
      some c7Session.nextId :=
  (C7_restart_fresh_dir ⟨[]⟩ ⟨['a'], []⟩ c7Session false false 1 1 rfl rfl rfl
    (by intro d hd; simp [c7Session] at hd ⊢; omega)).1

/-- Body writes signal no status. -/
theorem statusCount_rwrites (l : List (List Nat)) :
    statusCount (l.map ResEvent.rwrite) = 0 := by
  simp [statusCount, List.countP_map, Function.comp]

/-- C9: on an upstream fetch failure the proxy answers 500 with the
plain-text body "Error fetching ZIP file"; on an extraction failure
before anything was flushed it answers 500 with "Error extracting WASM
file"; at most one status is ever signalled; and when the extraction
stream errors after chunks were flushed, no 500 is signalled at all (the
connection is merely aborted). -/
theorem C9_wasm_proxy_errors :
    (∀ ex : ExtractOutcome,
      wasmHandler false ex = [.rstatus 500, .rsend "Error fetching ZIP file".toList]) ∧
    wasmHandler true (.fail []) =
      [.rset, .rstatus 500, .rsend "Error extracting WASM file".toList] ∧
    (∀ (fo : Bool) (ex : ExtractOutcome), statusCount (wasmHandler fo ex) ≤ 1) ∧
    (∀ (c : List Nat) (cs : List (List Nat)),
      ResEvent.rstatus 500 ∉ wasmHandler true (.fail (c :: cs))) := by
  refine ⟨fun ex => rfl, rfl, ?_, ?_⟩
  · intro fo ex
    cases fo
    · simp [wasmHandler, statusCount]
    · cases ex with
      | ok chunks =>
        have h2 : statusCount (wasmHandler true (.ok chunks)) =
            statusCount (chunks.map ResEvent.rwrite) := by
          simp [wasmHandler, statusCount, List.countP_cons]
        rw [h2, statusCount_rwrites]
        omega
      | fail flushed =>
        cases flushed with
        | nil => simp [wasmHandler, statusCount, List.countP_cons]
        | cons c cs =>
          have h2 : statusCount (wasmHandler true (.fail (c :: cs))) =
              statusCount ((c :: cs).map ResEvent.rwrite) := by
            simp [wasmHandler, statusCount, List.countP_cons, List.countP_append]
          rw [h2, statusCount_rwrites]
          omega
  · intro c cs
    simp [wasmHandler]

/-- C9 witness: the proxy theorem applied at concrete outcomes. -/
theorem C9_wasm_proxy_witness :
    wasmHandler false (.ok []) =
      [.rstatus 500, .rsend "Error fetching ZIP file".toList] ∧
    statusCount (wasmHandler true (.fail [[0]])) ≤ 1 ∧
    ResEvent.rstatus 500 ∉ wasmHandler true (.fail [[0]]) :=
  ⟨C9_wasm_proxy_errors.1 (.ok []),
   C9_wasm_proxy_errors.2.2.1 true (.fail [[0]]),
   C9_wasm_proxy_errors.2.2.2 [0] []⟩

/-- C5: on a cache hit the whole run is the cache lookup followed by
decoding the cached bytes into the package — the trace contains no
network fetch and no progress report, regardless of the other inputs. -/
theorem C5_cache_hit_no_fetch (b : List Nat) (fetchOk : Bool) (total : Nat)
    (body : Option (List (List Nat))) (doCache : Bool) :
    initializeWasmer (some b) fetchOk total body doCache =
      [.suspend, .suspend, .suspend, .suspend, .suspend, .setPkg ⟨b⟩] ∧
    WAction.netFetch ∉ initializeWasmer (some b) fetchOk total body doCache ∧
    reports (initializeWasmer (some b) fetchOk total body doCache) = [] ∧
    WAction.setPkg ⟨b⟩ ∈ initializeWasmer (some b) fetchOk total body doCache := by
  refine ⟨rfl, ?_, rfl, ?_⟩
  · simp [initializeWasmer]
  · simp [initializeWasmer]

/-- C5 witness: the cache-hit theorem applied at concrete inputs. -/
theorem C5_cache_hit_witness :
    initializeWasmer (some [1]) true 0 none false =
      [.suspend, .suspend, .suspend, .suspend, .suspend, .setPkg ⟨[1]⟩] :=
  (C5_cache_hit_no_fetch [1] true 0 none false).1

/-- An element of `getLast?` is an element of the list. -/
theorem memOfGetLastOpt {α : Type} {l : List α} {x : α} (h : x ∈ l.getLast?) :
    x ∈ l := by
  obtain ⟨hne, rfl⟩ := List.mem_getLast?_eq_getLast h
  exact List.getLast_mem hne

/-- The scaled progress value is at least 30. -/
theorem progressVal_ge (total loaded : Nat) : 30 ≤ progressVal total loaded := by
  unfold progressVal
  have h : (0 : ℚ) ≤ ((loaded : ℚ) / (total : ℚ)) * 50 := by positivity
  exact le_min (by linarith) (by norm_num)

/-- The scaled progress value is at most 80. -/
theorem progressVal_le (total loaded : Nat) : progressVal total loaded ≤ 80 :=
  min_le_right _ _

/-- The scaled progress value is monotone in the accumulated byte
count. -/
theorem progressVal_mono (total : Nat) {a b : Nat} (h : a ≤ b) :
    progressVal total a ≤ progressVal total b := by
  unfold progressVal
  apply min_le_min _ le_rfl
  have hd : ((a : ℚ) / (total : ℚ)) ≤ (b : ℚ) / (total : ℚ) := by
    rcases Nat.eq_zero_or_pos total with h0 | h0
    · rw [h0]
      norm_num
    · have ht : (0 : ℚ) < (total : ℚ) := by exact_mod_cast h0
      exact (div_le_div_iff_of_pos_right ht).mpr (by exact_mod_cast h)
  exact add_le_add_left (mul_le_mul_of_nonneg_right hd (by norm_num)) 30

/-- The progress reports of the reader loop form a nondecreasing chain,
lie within [30, 80], and are bounded below by the progress value at the
entry byte count. -/
theorem chunkActs_reports (total : Nat) (cs : List (List Nat)) : ∀ loaded : Nat,
    List.Chain' (· ≤ ·) (reports (chunkActs total loaded cs)) ∧
    ∀ v ∈ reports (chunkActs total loaded cs),
      progressVal total loaded ≤ v ∧ 30 ≤ v ∧ v ≤ 80 := by
  induction cs with
  | nil =>
    intro loaded
    simp [chunkActs, reports]
  | cons c cs ih =>
    intro loaded
    obtain ⟨ihc, ihb⟩ := ih (loaded + c.length)
    have hrep : reports (chunkActs total loaded (c :: cs)) =
        (if 0 < total then [progressVal total (loaded + c.length)] else []) ++
          reports (chunkActs total (loaded + c.length) cs) := by
      by_cases h : 0 < total <;> simp [chunkActs, reports, h]
    rw [hrep]
    by_cases h : 0 < total
    · rw [if_pos h]
      constructor
      · rw [List.singleton_append, List.chain'_cons']
        refine ⟨fun y hy => (ihb y (List.mem_of_mem_head? hy)).1, ihc⟩
      · intro v hv
        rcases List.mem_cons.mp hv with rfl | hv
        · exact ⟨progressVal_mono total (Nat.le_add_right _ _),
            progressVal_ge _ _, progressVal_le _ _⟩
        · obtain ⟨h1, h2, h3⟩ := ihb v hv
          exact ⟨le_trans (progressVal_mono total (Nat.le_add_right _ _)) h1, h2, h3⟩
    · rw [if_neg h, List.nil_append]
      refine ⟨ihc, fun v hv => ?_⟩
      obtain ⟨h1, h2, h3⟩ := ihb v hv
      exact ⟨le_trans (progressVal_mono total (Nat.le_add_right _ _)) h1, h2, h3⟩

/-- Phase tracking distributes over append. -/
theorem endPhase_append (ph : Phase) (l1 l2 : List WAction) :
    endPhase ph (l1 ++ l2) = endPhase (endPhase ph l1) l2 := by
  induction l1 generalizing ph with
  | nil => rfl
  | cons a l ih => cases a <;> simp [endPhase, ih]

/-- Phase-tagged reporting distributes over append. -/
theorem tagged_append (ph : Phase) (l1 l2 : List WAction) :
    tagged ph (l1 ++ l2) = tagged ph l1 ++ tagged (endPhase ph l1) l2 := by
  induction l1 generalizing ph with
  | nil => rfl
  | cons a l ih => cases a <;> simp [tagged, endPhase, ih]

/-- The reader loop performs no phase change. -/
theorem endPhase_chunkActs (total : Nat) (cs : List (List Nat)) (ph : Phase) :
    ∀ loaded, endPhase ph (chunkActs total loaded cs) = ph := by
  induction cs with
  | nil => intro loaded; rfl
  | cons c cs ih =>
    intro loaded
    by_cases h : 0 < total <;>
      simp [chunkActs, endPhase, endPhase_append, h, ih]

/-- Every phase-tagged report of the reader loop carries the entry phase
and lies within [30, 80]. -/
theorem tagged_chunkActs (total : Nat) (cs : List (List Nat)) (ph : Phase) :
    ∀ loaded, ∀ pv ∈ tagged ph (chunkActs total loaded cs),
      pv.1 = ph ∧ 30 ≤ pv.2 ∧ pv.2 ≤ 80 := by
  induction cs with
  | nil =>
    intro loaded pv hpv
    simp [chunkActs, tagged] at hpv
  | cons c cs ih =>
    intro loaded pv hpv
    have hT : tagged ph (chunkActs total loaded (c :: cs)) =
        (if 0 < total then [(ph, progressVal total (loaded + c.length))] else []) ++
          tagged ph (chunkActs total (loaded + c.length) cs) := by
      by_cases h : 0 < total <;>
        simp [chunkActs, tagged, tagged_append, endPhase, h]
    rw [hT] at hpv
    by_cases h : 0 < total
    · rw [if_pos h, List.singleton_append] at hpv
      rcases List.mem_cons.mp hpv with rfl | hpv
      · exact ⟨rfl, progressVal_ge _ _, progressVal_le _ _⟩
      · exact ih (loaded + c.length) pv hpv
    · rw [if_neg h, List.nil_append] at hpv
      exact ih (loaded + c.length) pv hpv

/-- Snapshot collection distributes over append. -/
theorem snapAux_append (st : Phase × ℚ) (l1 l2 : List WAction) :
    snapAux st (l1 ++ l2) = snapAux st l1 ++ snapAux (endState st l1) l2 := by
  induction l1 generalizing st with
  | nil => rfl
  | cons a l ih => simp [snapAux, endState, ih]

/-- State evolution distributes over append. -/
theorem endState_append (st : Phase × ℚ) (l1 l2 : List WAction) :
    endState st (l1 ++ l2) = endState (endState st l1) l2 := by
  simp [endState, List.foldl_append]

/-- Every state observed inside the reader loop keeps the entry phase,
and its progress is the entry value or lies within [30, 80]. -/
theorem snapAux_chunkActs (total : Nat) (cs : List (List Nat)) :
    ∀ (loaded : Nat) (ph : Phase) (v : ℚ),
      ∀ pv ∈ snapAux (ph, v) (chunkActs total loaded cs),
        pv.1 = ph ∧ (pv.2 = v ∨ (30 ≤ pv.2 ∧ pv.2 ≤ 80)) := by
  induction cs with
  | nil =>
    intro loaded ph v pv hpv
    simp [chunkActs, snapAux, isSuspension, stepState] at hpv
    rw [hpv]
    exact ⟨rfl, Or.inl rfl⟩
  | cons c cs ih =>
    intro loaded ph v pv hpv
    by_cases h : 0 < total
    · have hs : snapAux (ph, v) (chunkActs total loaded (c :: cs)) =
          (ph, v) :: snapAux (ph, progressVal total (loaded + c.length))
            (chunkActs total (loaded + c.length) cs) := by
        simp [chunkActs, h, snapAux, snapAux_append, endState, stepState, isSuspension]
      rw [hs] at hpv
      rcases List.mem_cons.mp hpv with rfl | hpv
      · exact ⟨rfl, Or.inl rfl⟩
      · obtain ⟨h1, h2⟩ := ih (loaded + c.length) ph (progressVal total (loaded + c.length)) pv hpv
        refine ⟨h1, Or.inr ?_⟩
        rcases h2 with h2 | h2
        · rw [h2]
          exact ⟨progressVal_ge _ _, progressVal_le _ _⟩
        · exact h2
    · have hs : snapAux (ph, v) (chunkActs total loaded (c :: cs)) =
          (ph, v) :: snapAux (ph, v) (chunkActs total (loaded + c.length) cs) := by
        simp [chunkActs, h, snapAux, isSuspension, stepState]
      rw [hs] at hpv
      rcases List.mem_cons.mp hpv with rfl | hpv
      · exact ⟨rfl, Or.inl rfl⟩
      · exact ih (loaded + c.length) ph v pv hpv

/-- Core properties of the cache-miss successful-fetch trace, given the
reader-loop facts for `mid`. -/
theorem loaderTrace_props (mid : List WAction) (buf : List Nat) (doCache : Bool)
    (hrc : List.Chain' (· ≤ ·) (reports mid))
    (hrb : ∀ v ∈ reports mid, 30 ≤ v ∧ v ≤ 80)
    (htg : ∀ pv ∈ tagged Phase.downloading mid,
      pv.1 = Phase.downloading ∧ 30 ≤ pv.2 ∧ pv.2 ≤ 80)
    (hsn : ∀ pv ∈ snapAux (Phase.downloading, (30 : ℚ)) mid,
      pv.1 = Phase.downloading ∧ (pv.2 = 30 ∨ (30 ≤ pv.2 ∧ pv.2 ≤ 80))) :
    List.Chain' (· ≤ ·) (reports (loaderTrace mid buf doCache)) ∧
    (∀ pv ∈ tagged Phase.initializing (loaderTrace mid buf doCache),
      pv.1 = Phase.downloading → 30 ≤ pv.2 ∧ pv.2 ≤ 80) ∧
    (∀ pv ∈ snapshots initPP (loaderTrace mid buf doCache),
      pv.2 = 100 → pv.1 = Phase.complete) := by
  have hre : reports (loaderTrace mid buf doCache) =
      10 :: 30 :: (reports mid ++ [85, 90, 95, 100]) := by
    cases doCache <;> simp [loaderTrace, reports, List.filterMap_append]
  have hta : tagged Phase.initializing (loaderTrace mid buf doCache) =
      (Phase.initializing, (10 : ℚ)) :: (Phase.downloading, (30 : ℚ)) ::
        (tagged Phase.downloading mid ++
          [(Phase.processing, (85 : ℚ)), (Phase.processing, (90 : ℚ)),
           (Phase.processing, (95 : ℚ)), (Phase.processing, (100 : ℚ))]) := by
    cases doCache <;>
      simp [loaderTrace, tagged_append, tagged, endPhase, endPhase_append]
  have hsa : snapshots initPP (loaderTrace mid buf doCache) =
      [(Phase.initializing, (0 : ℚ)), (Phase.initializing, 0), (Phase.initializing, 0),
       (Phase.initializing, 0), (Phase.downloading, (30 : ℚ))] ++
        (snapAux (Phase.downloading, (30 : ℚ)) mid ++
          ((if doCache then [(Phase.processing, (95 : ℚ))] else []) ++
            [(Phase.complete, (100 : ℚ))])) := by
    cases doCache <;>
      simp [snapshots, loaderTrace, snapAux_append, endState_append, snapAux,
        endState, stepState, isSuspension, initPP]
  refine ⟨?_, ?_, ?_⟩
  · rw [hre]
    refine List.chain'_cons'.mpr ⟨?_, List.chain'_cons'.mpr ⟨?_, ?_⟩⟩
    · intro y hy
      simp at hy
      subst hy
      norm_num
    · intro y hy
      cases hm : reports mid with
      | nil =>
        rw [hm] at hy
        simp at hy
        subst hy
        norm_num
      | cons a as =>
        rw [hm] at hy
        simp at hy
        subst hy
        exact (hrb a (by rw [hm]; exact List.mem_cons_self a as)).1
    · refine List.chain'_append.mpr ⟨hrc, ?_, ?_⟩
      · simp [List.chain'_cons']
        norm_num
      · intro x hx y hy
        simp at hy
        subst hy
        have := (hrb x (memOfGetLastOpt hx)).2
        linarith
  · intro pv hpv hdl
    rw [hta] at hpv
    rcases List.mem_cons.mp hpv with rfl | hpv
    · simp at hdl
    rcases List.mem_cons.mp hpv with rfl | hpv
    · norm_num
    rcases List.mem_append.mp hpv with hpv | hpv
    · exact (htg pv hpv).2
    · simp at hpv
      rcases hpv with rfl | rfl | rfl | rfl <;> simp at hdl
  · intro pv hpv h100
    rw [hsa] at hpv
    rcases List.mem_append.mp hpv with h5 | hrest
    · exfalso
      simp at h5
      rcases h5 with rfl | rfl | rfl | rfl | rfl <;> norm_num at h100
    rcases List.mem_append.mp hrest with hmid | hpost
    · exfalso
      obtain ⟨_, hv⟩ := hsn pv hmid
      rcases hv with hv | hv
      · rw [h100] at hv
        norm_num at hv
      · rw [h100] at hv
        have := hv.2
        norm_num at this
    rcases List.mem_append.mp hpost with hif | hlast
    · exfalso
      by_cases hdc : doCache
      · rw [if_pos hdc] at hif
        simp at hif
        rw [hif] at h100
        norm_num at h100
      · rw [if_neg hdc] at hif
        simp at hif
    · simp at hlast
      rw [hlast]

/-- C4: within one resolve run the sequence of reported progress values
is monotonically nondecreasing; every value reported while the phase
variable is `downloading` (the streaming phase) lies in the band
[30, 80]; and among the observable (phase, progress) states — the states
at the suspension points (awaits), where the surrounding framework
renders, plus the final state — the value 100 occurs only together with
phase `complete` (the source sets progress 100 and phase complete in the
same synchronous block, with no suspension between the two setters). -/
theorem C4_progress_monotone_banded (cachedBytes : Option (List Nat)) (fetchOk : Bool)
    (total : Nat) (body : Option (List (List Nat))) (doCache : Bool) :
    List.Chain' (· ≤ ·)
      (reports (initializeWasmer cachedBytes fetchOk total body doCache)) ∧
    (∀ pv ∈ tagged Phase.initializing
        (initializeWasmer cachedBytes fetchOk total body doCache),
      pv.1 = Phase.downloading → 30 ≤ pv.2 ∧ pv.2 ≤ 80) ∧
    (∀ pv ∈ snapshots initPP (initializeWasmer cachedBytes fetchOk total body doCache),
      pv.2 = 100 → pv.1 = Phase.complete) := by
  cases cachedBytes with
  | some b =>
    refine ⟨?_, ?_, ?_⟩
    · simp [initializeWasmer, reports]
    · intro pv hpv
      simp [initializeWasmer, tagged] at hpv
    · intro pv hpv h100
      simp [initializeWasmer, snapshots, snapAux, endState, stepState,
        isSuspension, initPP] at hpv
      rw [hpv] at h100
      norm_num at h100
  | none =>
    cases fetchOk with
    | false =>
      have heq : initializeWasmer none false total body doCache =
          [.suspend, .suspend, .suspend, .suspend,
           .setPhase .initializing, .setProgress 10,
           .setPhase .downloading, .setProgress 30, .netFetch] := rfl
      rw [heq]
      refine ⟨?_, ?_, ?_⟩
      · rw [show reports
            [WAction.suspend, WAction.suspend, WAction.suspend, WAction.suspend,
             WAction.setPhase .initializing, WAction.setProgress 10,
             WAction.setPhase .downloading, WAction.setProgress 30,
             WAction.netFetch] = [10, 30] from rfl]
        norm_num [List.chain'_cons']
        intro y hy
        cases hy
      · intro pv hpv hdl
        simp [tagged] at hpv
        rcases hpv with rfl | rfl
        · simp at hdl
        · norm_num
      · intro pv hpv h100
        simp [snapshots, snapAux, endState, stepState, isSuspension, initPP] at hpv
        rcases hpv with rfl | rfl <;> norm_num at h100
    | true =>
      have heq : initializeWasmer none true total body doCache =
          loaderTrace
            (match body with
             | some cs => chunkActs total 0 cs
             | none => [])
            ((body.getD []).flatten) doCache := by
        cases body <;> simp [initializeWasmer, loaderTrace]
      rw [heq]
      cases body with
      | none =>
        exact loaderTrace_props [] _ doCache (by simp [reports])
          (by simp [reports]) (by simp [tagged]) (by simp [snapAux])
      | some cs =>
        exact loaderTrace_props (chunkActs total 0 cs) _ doCache
          (chunkActs_reports total cs 0).1
          (fun v hv => ((chunkActs_reports total cs 0).2 v hv).2)
          (tagged_chunkActs total cs Phase.downloading 0)
          (snapAux_chunkActs total cs 0 Phase.downloading 30)

/-- C4 witness: the progress theorem applied at a concrete run (cache
miss, successful fetch, content length 100, two 50-byte chunks): the
report after the first chunk is tagged `downloading` and the theorem
places it in the band. -/
theorem C4_progress_witness :
    30 ≤ (Phase.downloading, progressVal 2 1).2 ∧
      (Phase.downloading, progressVal 2 1).2 ≤ 80 :=
  (C4_progress_monotone_banded none true 2 (some [[0], [0]]) true).2.1
    (Phase.downloading, progressVal 2 1)
    (by
      have h : tagged Phase.initializing
          (initializeWasmer none true 2 (some [[0], [0]]) true) =
          [(Phase.initializing, 10), (Phase.downloading, 30),
           (Phase.downloading, progressVal 2 1), (Phase.downloading, progressVal 2 2),
           (Phase.processing, 85), (Phase.processing, 90), (Phase.processing, 95),
           (Phase.processing, 100)] := rfl
      rw [h]
      simp) rfl

end R2Web
